import Mathlib

/-!
Shallow embedding of the smsc Go client library (client.go).

The repository contains two snapshots of the package in one file:
revision 1 (Result.Count tagged "count", message without charset) and
revision 2 (Result.Count tagged "cnt", Result.Phones, charset field).
Shared pieces (Config/New/Client, Error, JSON model) are embedded once;
revision-specific pieces live in namespaces V1 and V2.

Go's encoding/json semantics that matter here and are embedded faithfully:
- Unmarshal into a **MetaResult with body `null` leaves the outer pointer
  nil (so the subsequent mr.Error field access in Send dereferences nil).
- For the embedded pair *Result / *Error, both structs tag a field "id"
  at the same promotion depth, so by the encoding/json conflict rule the
  "id" key of the response object is ignored entirely.
- An embedded pointer struct is allocated as soon as any key mapping to
  one of its (non-conflicting) fields appears in the object, even when
  the value is JSON null (allocation happens before the value decode).
- Unmarshaling JSON null into an int or string field is a no-op; into a
  pointer field it stores nil; any other type mismatch is a decode error,
  which Send surfaces wrapped, discarding the partially decoded value.
-/

namespace Smsc

/-- JSON documents, the provider's response bodies. Numbers are modelled
as integers, which covers every field the merged shape decodes. -/
inductive Json where
  | null
  | num (n : Int)
  | str (s : String)
  | boolean (b : Bool)
  | arr (elems : List Json)
  | obj (fields : List (String × Json))

/-- DefaultURL from client.go line 13. -/
def DefaultURL : String := "https://smsc.ru/sys/send.php"

/-- Handle standing for a *http.Client value; tag 0 is http.DefaultClient. -/
structure HttpClientHandle where
  tag : Nat
deriving DecidableEq

def DefaultHttpClient : HttpClientHandle := ⟨0⟩

/-- Sentinel error returned by New, client.go line 15. -/
inductive NewError where
  | ErrNoLoginPassword
deriving DecidableEq

/-- Config from client.go lines 18-27; the nil http.Client is `none`. -/
structure Config where
  URL : String
  Login : String
  Password : String
  Client : Option HttpClientHandle

/-- Client from client.go lines 50-55. -/
structure Client where
  url : String
  login : String
  password : String
  http : HttpClientHandle
deriving DecidableEq

/-- New from client.go lines 30-47: default the URL, reject empty
credentials with the sentinel, default the transport, build the client. -/
def New (cfg : Config) : Except NewError Client :=
  let cfg1 := if cfg.URL = "" then { cfg with URL := DefaultURL } else cfg
  if cfg1.Login = "" ∨ cfg1.Password = "" then
    .error .ErrNoLoginPassword
  else
    let cfg2 := if cfg1.Client.isNone then { cfg1 with Client := some DefaultHttpClient } else cfg1
    .ok { url := cfg2.URL, login := cfg2.Login, password := cfg2.Password,
          http := cfg2.Client.getD DefaultHttpClient }

/-- Error from client.go lines 203-207: error_code, error, optional id. -/
structure Error where
  Code : Int
  Desc : String
  ID : Option Int
deriving DecidableEq

def Error.zero : Error := { Code := 0, Desc := "", ID := none }

/-- Error rendering from client.go lines 209-215: the ", ID - n" clause is
appended exactly when ID is non-nil. -/
def Error.Error (e : Error) : String :=
  let s := "ERROR = " ++ toString e.Code ++ " (" ++ e.Desc ++ ")"
  match e.ID with
  | some i => s ++ ", ID - " ++ toString i
  | none => s

/-- Decode a JSON value into an int field holding `cur` (null is a no-op,
non-number is a decode error). -/
def decInt (cur : Int) : Json → Except String Int
  | .num n => .ok n
  | .null => .ok cur
  | _ => .error "cannot unmarshal value into Go field of type int"

/-- Decode a JSON value into a string field holding `cur`. -/
def decString (cur : String) : Json → Except String String
  | .str s => .ok s
  | .null => .ok cur
  | _ => .error "cannot unmarshal value into Go field of type string"

/-- Decode a JSON value into a *string field (null stores nil). -/
def decOptString : Json → Except String (Option String)
  | .str s => .ok (some s)
  | .null => .ok none
  | _ => .error "cannot unmarshal value into Go field of type *string"

/-- The transport outcome of the single PostForm call made by Send: a
transport-level failure, a body that is not valid JSON, or a parsed body. -/
inductive Body where
  | malformed (raw : String)
  | parsed (j : Json)

inductive Response where
  | transportError (msg : String)
  | success (body : Body)

namespace V1

/-- message from client.go lines 110-117 (revision 1): no charset field.
Format and Cost are Go ints. -/
structure message where
  Login : String
  Password : String
  Text : String
  Phones : List String
  Format : Int
  Cost : Int
deriving DecidableEq

def formatInlineVerbose : Int := 0
def formatInline : Int := 1
def formatXML : Int := 2
def formatJSON : Int := 3

def CostOmit : Int := 0
def CostWithoutSend : Int := 1
def CostCount : Int := 2
def CostCountBalance : Int := 3

/-- Opt from client.go line 153, a mutation of the message. -/
def Opt : Type := message → message

/-- WithCost from client.go lines 160-164. -/
def WithCost (c : Int) : Opt := fun m => { m with Cost := c }

/-- Errors a Send call can return: wrapErr-wrapped transport or decode
failures, or the provider's structured Error. -/
inductive SendErr where
  | wrapped (msg : String)
  | api (e : Smsc.Error)
deriving DecidableEq

/-- Validate from client.go lines 128-133: a no-op placeholder. -/
def message.Validate (_ : message) : Option SendErr := none

/-- Key membership in a url.Values map (Go map key presence). -/
def valuesHasKey : List (String × List String) → String → Bool
  | [], _ => false
  | p :: v, k => if p.1 = k then true else valuesHasKey v k

/-- url.Values.Set: replace the key's value with a singleton, or insert. -/
def valuesSet (v : List (String × List String)) (k : String) (x : String) :
    List (String × List String) :=
  if valuesHasKey v k then
    v.map (fun p => if p.1 = k then (k, [x]) else p)
  else
    v ++ [(k, [x])]

/-- Lookup in a url.Values map; a missing key reads as the nil slice. -/
def valuesGet : List (String × List String) → String → List String
  | [], _ => []
  | p :: v, k => if p.1 = k then p.2 else valuesGet v k

/-- Values from client.go lines 136-150: base map with login, psw, mes and
the phones slice; fmt set when Format is non-zero, cost when Cost is. -/
def message.Values (m : message) : List (String × List String) :=
  let v := [("login", [m.Login]), ("psw", [m.Password]),
            ("mes", [m.Text]), ("phones", m.Phones)]
  let v1 := if m.Format ≠ 0 then valuesSet v "fmt" (toString m.Format) else v
  if m.Cost ≠ 0 then valuesSet v1 "cost" (toString m.Cost) else v1

/-- The message Send builds at client.go lines 58-67: credentials copied
from the client, Format forced to formatJSON, then the options applied in
order. -/
def buildMessage (c : Client) (text : String) (phones : List String)
    (opts : List Opt) : message :=
  opts.foldl (fun m o => o m)
    { Login := c.login, Password := c.password, Text := text,
      Phones := phones, Format := formatJSON, Cost := 0 }

/-- Result from client.go lines 192-197 (revision 1, count tag "count"). -/
structure Result where
  ID : Int
  Count : Int
  Cost : Option String
  Balance : Option String
deriving DecidableEq

def Result.zero : Result := { ID := 0, Count := 0, Cost := none, Balance := none }

/-- The anonymous MetaResult of client.go lines 86-89: embedded *Result
and *Error, each nil until a key belonging to it is decoded. -/
structure MetaResult where
  result : Option Result
  error : Option Smsc.Error
deriving DecidableEq

/-- Decode one object key into the merged shape. Keys "count", "cost",
"balance" belong to Result; "error_code", "error" belong to Error; the
key "id" is tagged by BOTH embedded structs at the same depth, so by the
encoding/json conflict rule it is ignored, as is any unknown key.
Touching a key allocates its embedded struct before decoding the value. -/
def decodeField (st : MetaResult) (kv : String × Json) : Except String MetaResult :=
  if kv.1 = "count" then
    match decInt ((st.result.getD Result.zero).Count) kv.2 with
    | .error e => .error e
    | .ok n => .ok { st with result := some { st.result.getD Result.zero with Count := n } }
  else if kv.1 = "cost" then
    match decOptString kv.2 with
    | .error e => .error e
    | .ok s => .ok { st with result := some { st.result.getD Result.zero with Cost := s } }
  else if kv.1 = "balance" then
    match decOptString kv.2 with
    | .error e => .error e
    | .ok s => .ok { st with result := some { st.result.getD Result.zero with Balance := s } }
  else if kv.1 = "error_code" then
    match decInt ((st.error.getD Error.zero).Code) kv.2 with
    | .error e => .error e
    | .ok n => .ok { st with error := some { st.error.getD Error.zero with Code := n } }
  else if kv.1 = "error" then
    match decString ((st.error.getD Error.zero).Desc) kv.2 with
    | .error e => .error e
    | .ok s => .ok { st with error := some { st.error.getD Error.zero with Desc := s } }
  else
    .ok st

/-- Sequentially decode the object's keys, as encoding/json walks them. -/
def decodeFields : MetaResult → List (String × Json) → Except String MetaResult
  | st, [] => .ok st
  | st, kv :: rest =>
    match decodeField st kv with
    | .error e => .error e
    | .ok st1 => decodeFields st1 rest

/-- json.Unmarshal(b, &mr) for mr : *MetaResult: body null leaves the
pointer nil; an object allocates the MetaResult and decodes its keys; any
other body is a type mismatch. -/
def decodeMetaResult : Json → Except String (Option MetaResult)
  | .null => .ok none
  | .obj fields =>
    match decodeFields { result := none, error := none } fields with
    | .error e => .error e
    | .ok st => .ok (some st)
  | _ => .error "cannot unmarshal value into Go value of type MetaResult"

/-- Outcome of one Send call: a runtime panic, an error return, or a
(possibly nil) Result with nil error. -/
inductive SendOutcome where
  | panicked (msg : String)
  | failure (e : SendErr)
  | ok (r : Option Result)
deriving DecidableEq

/-- Send from client.go lines 57-99, with the single PostForm exchange
abstracted as the `resp` argument. Transport and read failures and decode
failures are wrapped with the "smsc: " prefix (wrapErr); a nil MetaResult
(body null) makes the mr.Error access on line 95 dereference nil. -/
def send (c : Client) (text : String) (phones : List String)
    (opts : List Opt) (resp : Response) : SendOutcome :=
  match (buildMessage c text phones opts).Validate with
  | some e => .failure e
  | none =>
    match resp with
    | .transportError s => .failure (.wrapped ("smsc: " ++ s))
    | .success (.malformed raw) =>
      .failure (.wrapped ("smsc: invalid JSON body: " ++ raw))
    | .success (.parsed j) =>
      match decodeMetaResult j with
      | .error e => .failure (.wrapped ("smsc: " ++ e))
      | .ok none => .panicked "invalid memory address or nil pointer dereference"
      | .ok (some mr) =>
        match mr.error with
        | some e => .failure (.api e)
        | none => .ok mr.result

end V1

namespace V2

/-- Phone from client.go lines 335-341 (revision 2). The Go struct's
first field is itself named Phone; Lean cannot reuse the structure's own
name for a field usable as such, so it is PhoneNum here (json tag
"phone"). -/
structure Phone where
  PhoneNum : String
  Mccmnc : String
  Cost : String
  Status : Option String
  Error : Option String
deriving DecidableEq

def Phone.zero : Phone :=
  { PhoneNum := "", Mccmnc := "", Cost := "", Status := none, Error := none }

/-- Result from client.go lines 323-329 (revision 2, count tag "cnt"). -/
structure Result where
  ID : Int
  Count : Int
  Cost : Option String
  Balance : Option String
  Phones : List Phone
deriving DecidableEq

def Result.zero : Result :=
  { ID := 0, Count := 0, Cost := none, Balance := none, Phones := [] }

/-- Decode one key of a phones array element. -/
def decodePhoneField (p : Phone) (kv : String × Json) : Except String Phone :=
  if kv.1 = "phone" then
    match decString p.PhoneNum kv.2 with
    | .error e => .error e
    | .ok s => .ok { p with PhoneNum := s }
  else if kv.1 = "mccmnc" then
    match decString p.Mccmnc kv.2 with
    | .error e => .error e
    | .ok s => .ok { p with Mccmnc := s }
  else if kv.1 = "cost" then
    match decString p.Cost kv.2 with
    | .error e => .error e
    | .ok s => .ok { p with Cost := s }
  else if kv.1 = "status" then
    match decOptString kv.2 with
    | .error e => .error e
    | .ok s => .ok { p with Status := s }
  else if kv.1 = "error" then
    match decOptString kv.2 with
    | .error e => .error e
    | .ok s => .ok { p with Error := s }
  else
    .ok p

def decodePhoneFields : Phone → List (String × Json) → Except String Phone
  | p, [] => .ok p
  | p, kv :: rest =>
    match decodePhoneField p kv with
    | .error e => .error e
    | .ok p1 => decodePhoneFields p1 rest

def decodePhone : Json → Except String Phone
  | .null => .ok Phone.zero
  | .obj fields => decodePhoneFields Phone.zero fields
  | _ => .error "cannot unmarshal value into Go value of type Phone"

def decodePhoneList : List Json → Except String (List Phone)
  | [] => .ok []
  | j :: rest =>
    match decodePhone j with
    | .error e => .error e
    | .ok p =>
      match decodePhoneList rest with
      | .error e => .error e
      | .ok ps => .ok (p :: ps)

/-- Decode a JSON value into the []Phone field (null is a no-op). -/
def decPhones (cur : List Phone) : Json → Except String (List Phone)
  | .null => .ok cur
  | .arr xs => decodePhoneList xs
  | _ => .error "cannot unmarshal value into Go field of type []Phone"

/-- The MetaResult of client.go lines 300-303 (revision 2). -/
structure MetaResult where
  result : Option Result
  error : Option Smsc.Error
deriving DecidableEq

/-- Decode one object key into the revision-2 merged shape: Result owns
"cnt", "cost", "balance", "phones"; Error owns "error_code", "error";
"id" is again tagged by both embedded structs and therefore ignored. -/
def decodeField (st : MetaResult) (kv : String × Json) : Except String MetaResult :=
  if kv.1 = "cnt" then
    match decInt ((st.result.getD Result.zero).Count) kv.2 with
    | .error e => .error e
    | .ok n => .ok { st with result := some { st.result.getD Result.zero with Count := n } }
  else if kv.1 = "cost" then
    match decOptString kv.2 with
    | .error e => .error e
    | .ok s => .ok { st with result := some { st.result.getD Result.zero with Cost := s } }
  else if kv.1 = "balance" then
    match decOptString kv.2 with
    | .error e => .error e
    | .ok s => .ok { st with result := some { st.result.getD Result.zero with Balance := s } }
  else if kv.1 = "phones" then
    match decPhones ((st.result.getD Result.zero).Phones) kv.2 with
    | .error e => .error e
    | .ok ps => .ok { st with result := some { st.result.getD Result.zero with Phones := ps } }
  else if kv.1 = "error_code" then
    match decInt ((st.error.getD Error.zero).Code) kv.2 with
    | .error e => .error e
    | .ok n => .ok { st with error := some { st.error.getD Error.zero with Code := n } }
  else if kv.1 = "error" then
    match decString ((st.error.getD Error.zero).Desc) kv.2 with
    | .error e => .error e
    | .ok s => .ok { st with error := some { st.error.getD Error.zero with Desc := s } }
  else
    .ok st

def decodeFields : MetaResult → List (String × Json) → Except String MetaResult
  | st, [] => .ok st
  | st, kv :: rest =>
    match decodeField st kv with
    | .error e => .error e
    | .ok st1 => decodeFields st1 rest

def decodeMetaResult : Json → Except String (Option MetaResult)
  | .null => .ok none
  | .obj fields =>
    match decodeFields { result := none, error := none } fields with
    | .error e => .error e
    | .ok st => .ok (some st)
  | _ => .error "cannot unmarshal value into Go value of type MetaResult"

inductive SendErr where
  | wrapped (msg : String)
  | api (e : Smsc.Error)
deriving DecidableEq

inductive SendOutcome where
  | panicked (msg : String)
  | failure (e : SendErr)
  | ok (r : Option Result)
deriving DecidableEq

/-- Response handling of revision-2 Send, client.go lines 287-312: the
same read / unmarshal / error-precedence tail as revision 1, over the
revision-2 merged shape. The message-building prefix of revision-2 Send
uses a message type (with the charset field) whose definition lies in the
part of that snapshot not present here; it does not influence how the
response body is decoded, which is all this function models. -/
def sendDecode (resp : Response) : SendOutcome :=
  match resp with
  | .transportError s => .failure (.wrapped ("smsc: " ++ s))
  | .success (.malformed raw) =>
    .failure (.wrapped ("smsc: invalid JSON body: " ++ raw))
  | .success (.parsed j) =>
    match decodeMetaResult j with
    | .error e => .failure (.wrapped ("smsc: " ++ e))
    | .ok none => .panicked "invalid memory address or nil pointer dereference"
    | .ok (some mr) =>
      match mr.error with
      | some e => .failure (.api e)
      | none => .ok mr.result

end V2

/-- Concrete client used to evaluate Send on concrete response bodies. -/
def clientA : Client :=
  { url := DefaultURL, login := "login", password := "pass", http := DefaultHttpClient }

/-- Concrete message used to instantiate option-composition facts. -/
def msgA : V1.message :=
  { Login := "l", Password := "p", Text := "t", Phones := ["79991112233"],
    Format := 3, Cost := 0 }

/-- An option that writes only the Cost field (possibly depending on the
message), leaving every other field unchanged. -/
def SetsOnlyCost (o : V1.Opt) : Prop :=
  ∀ m : V1.message, ∃ k, o m = { m with Cost := k }

/-- An option that stores a fixed value into the Cost field, as WithCost
does, leaving every other field unchanged. -/
def ConstCost (o : V1.Opt) : Prop :=
  ∃ k, ∀ m : V1.message, o m = { m with Cost := k }

/-- An option that stores a fixed value into the Format field, leaving
every other field unchanged. -/
def ConstFormat (o : V1.Opt) : Prop :=
  ∃ f, ∀ m : V1.message, o m = { m with Format := f }

/-- C1: New succeeds with a fully resolved client exactly when both Login
and Password are non-empty, and fails with ErrNoLoginPassword (returning
no client) when either is empty; New performs no network activity, being
a pure construction. -/
theorem new_credentials (cfg : Config) :
    (cfg.Login ≠ "" ∧ cfg.Password ≠ "" →
      New cfg = .ok { url := if cfg.URL = "" then DefaultURL else cfg.URL,
                      login := cfg.Login, password := cfg.Password,
                      http := cfg.Client.getD DefaultHttpClient }) ∧
    (cfg.Login = "" ∨ cfg.Password = "" → New cfg = .error .ErrNoLoginPassword) := by
  obtain ⟨u, l, p, cl⟩ := cfg
  constructor
  · rintro ⟨hL, hP⟩
    by_cases hU : u = "" <;>
      cases cl <;>
        simp [New, hU, hL, hP]
  · intro h
    by_cases hU : u = "" <;>
      rcases h with h | h <;>
        simp [New, hU, h]

/-- Witness for new_credentials: a concrete valid config builds the
expected client, and a concrete config with empty login fails with the
sentinel. -/
theorem new_credentials_witness :
    New { URL := "", Login := "u", Password := "p", Client := none } =
      .ok { url := DefaultURL, login := "u", password := "p", http := DefaultHttpClient } ∧
    New { URL := "", Login := "", Password := "p", Client := none } =
      .error .ErrNoLoginPassword := by
  constructor
  · exact (new_credentials { URL := "", Login := "u", Password := "p", Client := none }).1
      ⟨by decide, by decide⟩
  · exact (new_credentials { URL := "", Login := "", Password := "p", Client := none }).2
      (Or.inl rfl)

/-- C2: the claim that Send never panics fails on the JSON body null:
Unmarshal leaves the *MetaResult nil and the mr.Error access on client.go
line 95 dereferences a nil pointer, panicking the process. -/
theorem send_null_body_panics :
    V1.send clientA "hello" ["79991112233"] [] (.success (.parsed .null)) =
      .panicked "invalid memory address or nil pointer dereference" := rfl

/-- C7: decoding the fixed success body with id 5, cnt 2, cost "1.00",
balance "99.00" yields Result.ID = 0, not 5: the id key is tagged by both
embedded structs and is dropped by the encoding/json conflict rule. In
the revision-2 shape Count is 2; in the revision-1 shape (count tag
"count") the cnt key is unknown and Count is 0 as well. -/
theorem success_body_id_dropped :
    V2.sendDecode (.success (.parsed (.obj
        [("id", .num 5), ("cnt", .num 2), ("cost", .str "1.00"), ("balance", .str "99.00")]))) =
      .ok (some { ID := 0, Count := 2, Cost := some "1.00", Balance := some "99.00", Phones := [] }) ∧
    V1.send clientA "text" ["79991112233"] [] (.success (.parsed (.obj
        [("id", .num 5), ("cnt", .num 2), ("cost", .str "1.00"), ("balance", .str "99.00")]))) =
      .ok (some { ID := 0, Count := 0, Cost := some "1.00", Balance := some "99.00" }) :=
  ⟨rfl, rfl⟩

/-- C9: the render rule itself appends ", ID - n" exactly when ID is
present, but Send's decode never populates Error.ID: on the body with
error_code 9, error "x", id 42 the id key is dropped (conflict rule), so
the returned error renders as "ERROR = 9 (x)" without the ID clause; the
null-id body renders as "ERROR = 3 (bad login)" as the claim says. -/
theorem error_body_id_dropped :
    V1.send clientA "text" ["79991112233"] [] (.success (.parsed (.obj
        [("error_code", .num 9), ("error", .str "x"), ("id", .num 42)]))) =
      .failure (.api { Code := 9, Desc := "x", ID := none }) ∧
    Error.Error { Code := 9, Desc := "x", ID := none } = "ERROR = 9 (x)" ∧
    Error.Error { Code := 9, Desc := "x", ID := some 42 } = "ERROR = 9 (x), ID - 42" ∧
    V1.send clientA "text" ["79991112233"] [] (.success (.parsed (.obj
        [("error_code", .num 3), ("error", .str "bad login"), ("id", .null)]))) =
      .failure (.api { Code := 3, Desc := "bad login", ID := none }) ∧
    Error.Error { Code := 3, Desc := "bad login", ID := none } = "ERROR = 3 (bad login)" :=
  ⟨rfl, rfl, rfl, rfl, rfl⟩

/-- C10: on the well-formed body consisting of the empty JSON object,
Send returns a nil Result together with a nil error, for every client,
text, phone list and option list. -/
theorem send_empty_object_nil_result (c : Client) (text : String)
    (phones : List String) (opts : List V1.Opt) :
    V1.send c text phones opts (.success (.parsed (.obj []))) = .ok none := rfl

/-- C8 counterexample: on the empty-object body Send returns neither a
Result nor an error, refuting the claim that exactly one of the two is
returned for every successfully decoded body. -/
theorem send_exactly_one_fails :
    ¬ ((∃ r : V1.Result, V1.send clientA "text" ["79991112233"] []
          (.success (.parsed (.obj []))) = .ok (some r)) ∨
       (∃ e : V1.SendErr, V1.send clientA "text" ["79991112233"] []
          (.success (.parsed (.obj []))) = .failure e)) := by
  have h : V1.send clientA "text" ["79991112233"] [] (.success (.parsed (.obj []))) =
      .ok none := rfl
  rintro (⟨r, hr⟩ | ⟨e, he⟩)
  · rw [h] at hr
    simp at hr
  · rw [h] at he
    simp at he

/-- Folding a list of WithCost options over a message only rewrites the
Cost field, to the last listed value. -/
theorem foldl_withCost (costs : List Int) (m : V1.message) :
    (costs.map V1.WithCost).foldl (fun m o => o m) m =
      { m with Cost := costs.getLast?.getD m.Cost } := by
  induction costs generalizing m with
  | nil => rfl
  | cons c cs ih =>
    simp only [List.map_cons, List.foldl_cons]
    rw [ih]
    cases cs with
    | nil => rfl
    | cons x xs =>
      obtain ⟨a, ha⟩ := Option.isSome_iff_exists.mp
        (List.getLast?_isSome.mpr (List.cons_ne_nil x xs))
      simp [V1.WithCost, List.getLast?_cons_cons, ha]

/-- The message Send builds from WithCost options: credentials and text
copied in, Format forced to 3 (formatJSON), Cost the last listed value. -/
theorem buildMessage_costs (c : Client) (text : String) (phones : List String)
    (costs : List Int) :
    V1.buildMessage c text phones (costs.map V1.WithCost) =
      { Login := c.login, Password := c.password, Text := text,
        Phones := phones, Format := V1.formatJSON,
        Cost := costs.getLast?.getD 0 } := by
  unfold V1.buildMessage
  rw [foldl_withCost]

/-- Values of a message, written as one explicit association list. -/
theorem Values_eval (m : V1.message) :
    m.Values =
      ([("login", [m.Login]), ("psw", [m.Password]),
        ("mes", [m.Text]), ("phones", m.Phones)]
        ++ (if m.Format = 0 then [] else [("fmt", [toString m.Format])]))
        ++ (if m.Cost = 0 then [] else [("cost", [toString m.Cost])]) := by
  by_cases hF : m.Format = 0 <;> by_cases hC : m.Cost = 0 <;>
    simp [V1.message.Values, V1.valuesSet, V1.valuesHasKey, hF, hC]

/-- C3: the form serialized from the message Send builds always carries
login, psw and mes with the client's login, the client's password and
the given text, and its phones entry is exactly the input phone list in
input order. -/
theorem send_form_required (c : Client) (text : String) (phones : List String)
    (costs : List Int) :
    V1.valuesGet (V1.buildMessage c text phones (costs.map V1.WithCost)).Values "login" =
        [c.login] ∧
    V1.valuesGet (V1.buildMessage c text phones (costs.map V1.WithCost)).Values "psw" =
        [c.password] ∧
    V1.valuesGet (V1.buildMessage c text phones (costs.map V1.WithCost)).Values "mes" =
        [text] ∧
    V1.valuesGet (V1.buildMessage c text phones (costs.map V1.WithCost)).Values "phones" =
        phones := by
  rw [buildMessage_costs, Values_eval]
  by_cases hC : costs.getLast?.getD 0 = 0 <;>
    simp [V1.valuesGet, V1.formatJSON, hC]

/-- C4: the cost key is absent from the form exactly when no cost option
was applied or the last-applied one carried Cost 0 (CostOmit), and holds
the decimal rendering of the last-applied value otherwise. -/
theorem send_form_cost (c : Client) (text : String) (phones : List String)
    (costs : List Int) :
    V1.valuesGet (V1.buildMessage c text phones (costs.map V1.WithCost)).Values "cost" =
      (if costs.getLast?.getD 0 = 0 then [] else [toString (costs.getLast?.getD 0)]) ∧
    V1.valuesHasKey (V1.buildMessage c text phones (costs.map V1.WithCost)).Values "cost" =
      (if costs.getLast?.getD 0 = 0 then false else true) := by
  rw [buildMessage_costs, Values_eval]
  by_cases hC : costs.getLast?.getD 0 = 0 <;>
    simp [V1.valuesGet, V1.valuesHasKey, V1.formatJSON, hC]

/-- C5: the fmt key appears in the form exactly when the message's Format
differs from the zero default, and because Send forces Format to 3
(formatJSON) and WithCost never touches it, the form built from any
WithCost options always carries fmt = "3". -/
theorem send_form_fmt :
    (∀ m : V1.message, V1.valuesHasKey m.Values "fmt" = true ↔ m.Format ≠ 0) ∧
    (∀ (c : Client) (text : String) (phones : List String) (costs : List Int),
      V1.valuesGet (V1.buildMessage c text phones (costs.map V1.WithCost)).Values "fmt" =
        ["3"]) := by
  constructor
  · intro m
    rw [Values_eval]
    by_cases hF : m.Format = 0 <;> by_cases hC : m.Cost = 0 <;>
      simp [V1.valuesHasKey, hF, hC]
  · intro c text phones costs
    rw [buildMessage_costs, Values_eval]
    by_cases hC : costs.getLast?.getD 0 = 0 <;>
      simp [V1.valuesGet, V1.formatJSON, hC] <;> rfl

/-- Witness for send_form_fmt: on a concrete message with Format 3 the
form carries the fmt key. -/
theorem send_form_fmt_witness : V1.valuesHasKey msgA.Values "fmt" = true :=
  (send_form_fmt.1 msgA).mpr (by decide)

/-- C6: applying two cost options in sequence equals applying only the
last one, in the message and in the serialized form; generally, a
last-applied constant cost setter erases any earlier cost-only option,
and a cost setter and a format setter touch disjoint fields and commute. -/
theorem options_compose :
    (∀ (m : V1.message) (c1 c2 : Int),
      V1.WithCost c2 (V1.WithCost c1 m) = V1.WithCost c2 m ∧
      (V1.WithCost c2 (V1.WithCost c1 m)).Values = (V1.WithCost c2 m).Values) ∧
    (∀ o1 o2 : V1.Opt, SetsOnlyCost o1 → ConstCost o2 →
      ∀ m, o2 (o1 m) = o2 m) ∧
    (∀ o1 o2 : V1.Opt, ConstCost o1 → ConstFormat o2 →
      ∀ m, o2 (o1 m) = o1 (o2 m)) := by
  refine ⟨fun m c1 c2 => ⟨rfl, rfl⟩, ?_, ?_⟩
  · rintro o1 o2 h1 ⟨k, hk⟩ m
    obtain ⟨k1, hk1⟩ := h1 m
    rw [hk1, hk, hk]
  · rintro o1 o2 ⟨k1, h1⟩ ⟨f2, h2⟩ m
    rw [h1, h2, h2, h1]

/-- Witness for options_compose: concrete cost options collapse to the
last one, and a cost setter commutes with a format setter. -/
theorem options_compose_witness :
    V1.WithCost 2 (V1.WithCost 1 msgA) = V1.WithCost 2 msgA ∧
    (fun m => { m with Format := 2 }) (V1.WithCost 1 msgA) =
      V1.WithCost 1 ((fun m => { m with Format := 2 }) msgA) := by
  constructor
  · exact (options_compose.1 msgA 1 2).1
  · exact options_compose.2.2 (V1.WithCost 1) (fun m => { m with Format := 2 })
      ⟨1, fun m => rfl⟩ ⟨2, fun m => rfl⟩ msgA

/-- A single decoded key leaves the error sub-shape untouched unless it
is error_code or error, in which case the sub-shape ends up allocated. -/
theorem decodeField_error_spec (st st1 : V1.MetaResult) (k : String) (j : Json)
    (h : V1.decodeField st (k, j) = .ok st1) :
    (st1.error = st.error ∧ k ≠ "error_code" ∧ k ≠ "error") ∨
    (st1.error.isSome = true ∧ (k = "error_code" ∨ k = "error")) := by
  by_cases h1 : k = "count"
  · left
    cases j <;> simp [V1.decodeField, h1, decInt] at h <;>
      simp [← h, h1]
  by_cases h2 : k = "cost"
  · left
    cases j <;> simp [V1.decodeField, h1, h2, decOptString] at h <;>
      simp [← h, h2]
  by_cases h3 : k = "balance"
  · left
    cases j <;> simp [V1.decodeField, h1, h2, h3, decOptString] at h <;>
      simp [← h, h3]
  by_cases h4 : k = "error_code"
  · right
    cases j <;> simp [V1.decodeField, h1, h2, h3, h4, decInt] at h <;>
      simp [← h, h4]
  by_cases h5 : k = "error"
  · right
    cases j <;> simp [V1.decodeField, h1, h2, h3, h4, h5, decString] at h <;>
      simp [← h, h5]
  left
  simp [V1.decodeField, h1, h2, h3, h4, h5] at h
  simp [← h, h4, h5]

/-- Along a successful decode, the error sub-shape ends up allocated
exactly when it started allocated or some key is error_code or error. -/
theorem decodeFields_error_isSome (fields : List (String × Json)) :
    ∀ (st0 st : V1.MetaResult), V1.decodeFields st0 fields = .ok st →
    (st.error.isSome = true ↔
      (st0.error.isSome = true ∨ ∃ kv ∈ fields, kv.1 = "error_code" ∨ kv.1 = "error")) := by
  induction fields with
  | nil =>
    intro st0 st h
    simp [V1.decodeFields] at h
    simp [← h]
  | cons kv rest ih =>
    intro st0 st h
    cases hd : V1.decodeField st0 kv with
    | error e => simp [V1.decodeFields, hd] at h
    | ok st1 =>
      have h' : V1.decodeFields st1 rest = .ok st := by
        simpa [V1.decodeFields, hd] using h
      have hs := ih st1 st h'
      rcases decodeField_error_spec st0 st1 kv.1 kv.2 hd with ⟨he, hk1, hk2⟩ | ⟨he, hk⟩
      · rw [hs, he]
        constructor
        · rintro (hh | ⟨kv2, hm, hp⟩)
          · exact Or.inl hh
          · exact Or.inr ⟨kv2, List.mem_cons_of_mem kv hm, hp⟩
        · rintro (hh | ⟨kv2, hm, hp⟩)
          · exact Or.inl hh
          · rcases List.mem_cons.mp hm with rfl | hm2
            · rcases hp with hp | hp
              · exact absurd hp hk1
              · exact absurd hp hk2
            · exact Or.inr ⟨kv2, hm2, hp⟩
      · have hst : st.error.isSome = true := hs.mpr (Or.inl he)
        rw [hst]
        constructor
        · intro _
          exact Or.inr ⟨kv, List.mem_cons_self kv rest, hk⟩
        · intro _
          rfl

/-- C8 as amended: on every successfully decoded object body, whenever
the error sub-shape ended up allocated Send returns it as the error with
a nil Result, and otherwise Send returns the decoded Result sub-shape
(possibly nil) with a nil error; the error sub-shape is allocated exactly
when the body contains an error_code or error key. -/
theorem send_error_precedence (c : Client) (text : String) (phones : List String)
    (opts : List V1.Opt) (fields : List (String × Json)) (st : V1.MetaResult)
    (h : V1.decodeFields { result := none, error := none } fields = .ok st) :
    (V1.send c text phones opts (.success (.parsed (.obj fields))) =
      match st.error with
      | some e => .failure (.api e)
      | none => .ok st.result) ∧
    (st.error.isSome = true ↔ ∃ kv ∈ fields, kv.1 = "error_code" ∨ kv.1 = "error") := by
  constructor
  · simp only [V1.send, V1.message.Validate, V1.decodeMetaResult, h]
  · have := decodeFields_error_isSome fields { result := none, error := none } st h
    simpa using this

/-- Witness for send_error_precedence: a body holding only an error key
makes Send return the allocated error (with zero code) and no Result. -/
theorem send_error_precedence_witness :
    V1.send clientA "t" ["79991112233"] [] (.success (.parsed (.obj [("error", .str "x")]))) =
      .failure (.api { Code := 0, Desc := "x", ID := none }) := by
  have h := send_error_precedence clientA "t" ["79991112233"] [] [("error", Json.str "x")]
    { result := none, error := some { Code := 0, Desc := "x", ID := none } } rfl
  exact h.1

end Smsc
